import Mathlib

/-!
Verification of the civil-gateway reverse proxy.

This file gives a shallow embedding, in Lean 4, of the pure decision logic
of the gateway's source code and proves, against that embedding, the
specified properties of the backend pool manager (refresh, round-robin
selection, readiness), the token-verification middleware, the CORS
middleware, the proxy director, and the health endpoint.

Modelling conventions:
* Go maps from string to string are modelled as association lists together
  with a lookup that returns the empty string for an absent key (the Go
  zero value).
* The registry call made by refreshEndpoints is external input; the
  function is modelled as taking the call's result (an error or a list of
  discovered instances) as an argument.
* The uint64 round-robin counter is modelled as a Nat reduced modulo 2^64
  at each increment, faithfully reproducing wrap-around.
* The token signature check performed by the OIDC verifier is external
  input; the middleware is modelled as taking the verifier as an oracle
  argument mapping the raw token string to its verification result.
-/

/-- Reduction modulus of Go's uint64 arithmetic. -/
def uint64Mod : Nat := 2 ^ 64

/-- Lookup in a Go string-to-string map: the zero value "" for a missing key. -/
def attrGet (attrs : List (String × String)) (k : String) : String :=
  match attrs.find? (fun p => p.1 == k) with
  | some p => p.2
  | none => ""

/-- One instance returned by the service registry (AWS Cloud Map): its
attribute map, from which the code reads AWS_INSTANCE_IPV4 and
AWS_INSTANCE_PORT. -/
structure Instance where
  attributes : List (String × String)
deriving DecidableEq

/-- The address the refresh loop body builds for one instance: skipped when
the IP attribute is empty, otherwise a string of the form
http://ip or http://ip:port. -/
def instanceAddr (inst : Instance) : Option String :=
  let ip := attrGet inst.attributes "AWS_INSTANCE_IPV4"
  let port := attrGet inst.attributes "AWS_INSTANCE_PORT"
  if ip = "" then none
  else if port = "" then some ("http://" ++ ip)
  else some ("http://" ++ (ip ++ ":" ++ port))

/-- The newEndpoints list built by refreshEndpoints from the registry
response, in response order. -/
def buildEndpoints (insts : List Instance) : List String :=
  insts.filterMap instanceAddr

/-- BackendManager.refreshEndpoints, as a function of the previous endpoint
list and the result of the DiscoverInstances call: on error the old list is
kept; on success the built list replaces the old one only when non-empty. -/
def refreshEndpoints (old : List String) (result : Except Unit (List Instance)) :
    List String :=
  match result with
  | .error _ => old
  | .ok insts =>
    let newEndpoints := buildEndpoints insts
    if newEndpoints.length > 0 then newEndpoints else old

/-- BackendManager.NextEndpoint, as a function of the endpoint list and the
current rrCounter value. Returns the defined error on an empty list;
otherwise increments the counter (with uint64 wrap-around) and returns the
endpoint at index counter mod length, together with the new counter. -/
def NextEndpoint (eps : List String) (c : Nat) : Except String (String × Nat) :=
  if eps.length = 0 then
    .error "no healthy endpoints available"
  else
    let val := (c + 1) % uint64Mod
    .ok (eps.getD (val % eps.length) "", val)

/-- The sequence of addresses returned by n successive NextEndpoint calls
starting from counter c, threading the counter through. -/
def selectSeq (eps : List String) : Nat → Nat → List String
  | _, 0 => []
  | c, n + 1 =>
    match NextEndpoint eps c with
    | .error _ => []
    | .ok (a, c2) => a :: selectSeq eps c2 n

/-- BackendManager.IsReady: true iff the endpoint list is non-empty. -/
def IsReady (eps : List String) : Bool :=
  decide (eps.length > 0)

/-- The JSON body of the health endpoint. Only the status field is ever
assigned by the handler; backendCount keeps the Go zero value. -/
structure HealthResponse where
  status : String
  backendCount : Int
deriving DecidableEq

/-- Status code and body written by the health endpoint. -/
structure HealthResult where
  statusCode : Nat
  body : HealthResponse
deriving DecidableEq

/-- HealthCheckHandler as a function of the pool's endpoint list. -/
def HealthCheckHandler (eps : List String) : HealthResult :=
  let ready := IsReady eps
  let resp : HealthResponse := { status := "OK", backendCount := 0 }
  if ready then
    { statusCode := 200, body := resp }
  else
    { statusCode := 503, body := { resp with status := "No tile servers available" } }

/-- C1: a refresh cycle whose registry query errors, or succeeds with zero
usable instances (none carrying a non-empty IP attribute, so the built list
is empty), leaves the pool's address list exactly as it was; in particular
a non-empty list is never emptied by such a cycle. -/
theorem refreshEndpoints_keeps_on_error_or_empty (old : List String)
    (r : Except Unit (List Instance))
    (h : ∀ insts, r = Except.ok insts → buildEndpoints insts = []) :
    refreshEndpoints old r = old := by
  cases r with
  | error e => rfl
  | ok insts =>
    have hb : buildEndpoints insts = [] := h insts rfl
    simp [refreshEndpoints, hb]

theorem refreshEndpoints_keeps_witness :
    refreshEndpoints ["http://10.0.0.1"] (Except.ok [⟨[]⟩]) = ["http://10.0.0.1"] :=
  refreshEndpoints_keeps_on_error_or_empty ["http://10.0.0.1"]
    (Except.ok [⟨[]⟩]) (by intro insts h; cases h; rfl)

/-- C2 counterexample: the registry returns one instance, but that instance
carries no IP attribute, so the code keeps the previous list instead of
replacing it with the newly built (empty) set — the pool's list after the
cycle is not the newly built set, refuting the claim for cycles that return
at least one instance. -/
theorem refreshEndpoints_replace_cex :
    refreshEndpoints ["http://10.0.0.1"] (Except.ok [⟨[]⟩]) ≠
      buildEndpoints [⟨[]⟩] := by
  decide

/-- The built endpoint list is the image of exactly the usable instances
(those with a non-empty IP attribute), each mapped to http://ip or
http://ip:port. -/
lemma buildEndpoints_eq_map_filter (insts : List Instance) :
    buildEndpoints insts =
      (insts.filter fun inst =>
          attrGet inst.attributes "AWS_INSTANCE_IPV4" != "").map
        (fun inst =>
          let ip := attrGet inst.attributes "AWS_INSTANCE_IPV4"
          let port := attrGet inst.attributes "AWS_INSTANCE_PORT"
          if port = "" then "http://" ++ ip else "http://" ++ (ip ++ ":" ++ port)) := by
  induction insts with
  | nil => rfl
  | cons inst rest ih =>
    by_cases hip : attrGet inst.attributes "AWS_INSTANCE_IPV4" = ""
    · simp [buildEndpoints, List.filterMap_cons, instanceAddr, hip,
        List.filter_cons] at ih ⊢
      exact ih
    · have ha : instanceAddr inst =
          some (if attrGet inst.attributes "AWS_INSTANCE_PORT" = ""
            then "http://" ++ attrGet inst.attributes "AWS_INSTANCE_IPV4"
            else "http://" ++ (attrGet inst.attributes "AWS_INSTANCE_IPV4" ++ ":" ++
              attrGet inst.attributes "AWS_INSTANCE_PORT")) := by
        rw [instanceAddr]
        simp only [hip, if_false]
        split <;> rfl
      simp [buildEndpoints, List.filterMap_cons, ha, List.filter_cons, hip]
      simpa [buildEndpoints] using ih

/-- C2 (amended): for a refresh cycle returning at least one usable
instance (one with a non-empty IP attribute), the pool's list afterward is
exactly the newly built list — one address per usable instance, of the form
http://ip or http://ip:port, in response order — with no stale entries
merged in. -/
theorem refreshEndpoints_replaces_on_usable (old : List String)
    (insts : List Instance)
    (h : ∃ inst ∈ insts, attrGet inst.attributes "AWS_INSTANCE_IPV4" ≠ "") :
    refreshEndpoints old (Except.ok insts) = buildEndpoints insts ∧
      buildEndpoints insts =
        (insts.filter fun inst =>
            attrGet inst.attributes "AWS_INSTANCE_IPV4" != "").map
          (fun inst =>
            let ip := attrGet inst.attributes "AWS_INSTANCE_IPV4"
            let port := attrGet inst.attributes "AWS_INSTANCE_PORT"
            if port = "" then "http://" ++ ip else "http://" ++ (ip ++ ":" ++ port)) := by
  refine ⟨?_, buildEndpoints_eq_map_filter insts⟩
  obtain ⟨inst, hmem, hip⟩ := h
  have hne : buildEndpoints insts ≠ [] := by
    intro hnil
    rw [buildEndpoints, List.filterMap_eq_nil_iff] at hnil
    have h2 := hnil inst hmem
    rw [instanceAddr] at h2
    simp only [hip, if_false] at h2
    split at h2 <;> simp at h2
  have hpos : (buildEndpoints insts).length > 0 :=
    List.length_pos.mpr hne
  simp [refreshEndpoints, hpos]

theorem refreshEndpoints_replaces_witness :
    refreshEndpoints ["http://old"]
        (Except.ok [⟨[("AWS_INSTANCE_IPV4", "10.0.0.5"), ("AWS_INSTANCE_PORT", "8080")]⟩]) =
        buildEndpoints [⟨[("AWS_INSTANCE_IPV4", "10.0.0.5"), ("AWS_INSTANCE_PORT", "8080")]⟩] ∧
      buildEndpoints [⟨[("AWS_INSTANCE_IPV4", "10.0.0.5"), ("AWS_INSTANCE_PORT", "8080")]⟩] =
        (([⟨[("AWS_INSTANCE_IPV4", "10.0.0.5"), ("AWS_INSTANCE_PORT", "8080")]⟩] :
            List Instance).filter fun inst =>
            attrGet inst.attributes "AWS_INSTANCE_IPV4" != "").map
          (fun inst =>
            let ip := attrGet inst.attributes "AWS_INSTANCE_IPV4"
            let port := attrGet inst.attributes "AWS_INSTANCE_PORT"
            if port = "" then "http://" ++ ip else "http://" ++ (ip ++ ":" ++ port)) :=
  refreshEndpoints_replaces_on_usable ["http://old"]
    [⟨[("AWS_INSTANCE_IPV4", "10.0.0.5"), ("AWS_INSTANCE_PORT", "8080")]⟩]
    (by decide)

/-- C5: selection against an empty endpoint list always fails with the
defined "no healthy endpoints available" error, for every counter value;
the total function never reaches the indexing branch, so no out-of-bounds
access or modulo-by-zero occurs. -/
theorem NextEndpoint_empty_fails (c : Nat) :
    NextEndpoint [] c = Except.error "no healthy endpoints available" := by
  rfl

/-- Reading every position of a list through getD reproduces the list. -/
lemma map_getD_range (l : List String) :
    (List.range l.length).map (fun i => l.getD i "") = l := by
  apply List.ext_getElem
  · simp
  · intro i h1 h2
    simp [List.getD_eq_getElem?_getD, List.getElem?_eq_getElem, h2]

/-- Shifting the range 0..K-1 by s modulo K permutes it. -/
lemma range_map_mod_perm (K s : Nat) :
    ((List.range K).map fun i => (s + i) % K).Perm (List.range K) := by
  rcases Nat.eq_zero_or_pos K with hK | hK
  · subst hK; simp
  · apply List.perm_of_nodup_nodup_toFinset_eq
    · refine List.Nodup.map_on ?_ (List.nodup_range K)
      intro x hx y hy hxy
      rw [List.mem_range] at hx hy
      have h2 : x % K = y % K := Nat.ModEq.add_left_cancel' s hxy
      rwa [Nat.mod_eq_of_lt hx, Nat.mod_eq_of_lt hy] at h2
    · exact List.nodup_range K
    · apply List.toFinset.ext
      intro j
      simp only [List.mem_map, List.mem_range]
      constructor
      · rintro ⟨i, hi, rfl⟩
        exact Nat.mod_lt _ hK
      · intro hj
        refine ⟨(j + K - s % K) % K, Nat.mod_lt _ hK, ?_⟩
        have ht1 : s % K ≤ s := Nat.mod_le s K
        have ht2 : s % K < K := Nat.mod_lt s hK
        have hdecomp : s + (j + K - s % K) = K * (s / K) + (j + K) := by
          have hdm := Nat.div_add_mod s K
          omega
        calc (s + (j + K - s % K) % K) % K
            = (s + (j + K - s % K)) % K := Nat.add_mod_mod s (j + K - s % K) K
          _ = (K * (s / K) + (j + K)) % K := by rw [hdecomp]
          _ = (j + K) % K := Nat.mul_add_mod K (s / K) (j + K)
          _ = j % K := Nat.add_mod_right j K
          _ = j := Nat.mod_eq_of_lt hj

/-- As long as the counter window does not cross the uint64 wrap-around, n
successive selections from counter c0 return the endpoints at indices
(c0+1+i) mod K for i = 0..n-1, in order. -/
lemma selectSeq_eq (eps : List String) (hne : eps ≠ []) :
    ∀ n c0, c0 + n < uint64Mod →
      selectSeq eps c0 n =
        (List.range n).map (fun i => eps.getD ((c0 + 1 + i) % eps.length) "") := by
  intro n
  induction n with
  | zero => intro c0 h; rfl
  | succ n ih =>
    intro c0 h
    have hlen : ¬ eps.length = 0 := by
      simpa using hne
    have hc : c0 + 1 < uint64Mod := by omega
    simp only [selectSeq, NextEndpoint, hlen, if_false]
    rw [Nat.mod_eq_of_lt hc]
    rw [ih (c0 + 1) (by omega)]
    rw [List.range_succ_eq_map, List.map_cons, List.map_map]
    have harith : ∀ a : Nat, c0 + 1 + 1 + a = c0 + 1 + (a + 1) := fun a => by omega
    simp only [harith, Nat.add_zero, Function.comp, Nat.succ_eq_add_one]
    rfl

/-- C4 counterexample: with three distinct addresses and the uint64 counter
two short of wrap-around, the first two selections both return the first
address — an address repeats before the pool has been cycled through (the
third address is never returned in the first three selections' window
before the repeat). This refutes the claim for arbitrary counter start
values. -/
theorem NextEndpoint_wraparound_cex :
    (["a", "b", "c"] : List String).Nodup ∧
      selectSeq ["a", "b", "c"] (2 ^ 64 - 2) 3 = ["a", "a", "b"] ∧
      ¬ (selectSeq ["a", "b", "c"] (2 ^ 64 - 2) 3).Nodup := by
  refine ⟨by decide, ?_, ?_⟩ <;> decide

/-- C4 (amended): provided the uint64 counter does not wrap around during
the K selections (c0 + K < 2^64), K successive selections against an
unchanged pool of size K ≥ 1 starting from counter c0 return exactly the
endpoints at indices (c0+1+i) mod K, i = 0..K-1 — a sequence that is a
deterministic function of the counter start and the list order and that is
a permutation of the pool, so every list entry is returned exactly once
before any position repeats. -/
theorem NextEndpoint_roundrobin (eps : List String) (c0 : Nat)
    (h1 : eps ≠ []) (h2 : c0 + eps.length < uint64Mod) :
    selectSeq eps c0 eps.length =
        (List.range eps.length).map
          (fun i => eps.getD ((c0 + 1 + i) % eps.length) "") ∧
      (selectSeq eps c0 eps.length).Perm eps := by
  have hseq := selectSeq_eq eps h1 eps.length c0 h2
  refine ⟨hseq, ?_⟩
  rw [hseq]
  have hperm := (range_map_mod_perm eps.length (c0 + 1)).map (fun j => eps.getD j "")
  rw [List.map_map, map_getD_range] at hperm
  exact hperm

theorem NextEndpoint_roundrobin_witness :
    selectSeq ["a", "b"] 0 (["a", "b"] : List String).length =
        (List.range (["a", "b"] : List String).length).map
          (fun i => (["a", "b"] : List String).getD
            ((0 + 1 + i) % (["a", "b"] : List String).length) "") ∧
      (selectSeq ["a", "b"] 0 (["a", "b"] : List String).length).Perm ["a", "b"] :=
  NextEndpoint_roundrobin ["a", "b"] 0 (by decide) (by decide)

/-- C9: the health endpoint returns 200 with JSON status OK exactly when
the pool's endpoint list is non-empty, and 503 with JSON status
"No tile servers available" exactly when it is empty. -/
theorem HealthCheckHandler_spec (eps : List String) :
    ((HealthCheckHandler eps).statusCode = 200 ∧
        (HealthCheckHandler eps).body.status = "OK" ↔ eps ≠ []) ∧
      ((HealthCheckHandler eps).statusCode = 503 ∧
        (HealthCheckHandler eps).body.status = "No tile servers available" ↔
          eps = []) := by
  cases eps with
  | nil => simp [HealthCheckHandler, IsReady]
  | cons a t =>
    simp [HealthCheckHandler, IsReady]

/-- C10: the health endpoint's JSON body always carries backend_count = 0,
whatever the pool holds — the handler never populates the field from the
pool's actual size. -/
theorem HealthCheckHandler_backend_count_zero (eps : List String) :
    (HealthCheckHandler eps).body.backendCount = 0 := by
  rw [HealthCheckHandler]
  split <;> rfl

/-- Go http.Header.Get on a header map modelled as an association list:
the first entry with the given name, or "" when absent. -/
def getHeader : List (String × String) → String → String
  | [], _ => ""
  | p :: rest, k => if p.1 == k then p.2 else getHeader rest k

/-- Go http.Header.Set: replace any entries with the given name by the
single new one. -/
def setHeader (hs : List (String × String)) (k v : String) :
    List (String × String) :=
  (k, v) :: hs.filter (fun p => p.1 != k)

lemma getHeader_setHeader_self (hs : List (String × String)) (k v : String) :
    getHeader (setHeader hs k v) k = v := by
  simp [setHeader, getHeader]

lemma getHeader_filter_ne (hs : List (String × String)) (k q : String)
    (h : q ≠ k) :
    getHeader (hs.filter fun p => p.1 != k) q = getHeader hs q := by
  induction hs with
  | nil => rfl
  | cons a t ih =>
    by_cases hak : a.1 = k
    · have hf : (a.1 != k) = false := by simp [hak]
      have hq : (a.1 == q) = false := beq_eq_false_iff_ne.mpr (by rw [hak]; exact Ne.symm h)
      simp [List.filter_cons, hf, getHeader, hq, ih]
    · have hf : (a.1 != k) = true := by simp [hak]
      by_cases haq : a.1 = q
      · simp [List.filter_cons, hf, getHeader, haq, h]
      · have hq : (a.1 == q) = false := beq_eq_false_iff_ne.mpr haq
        simp [List.filter_cons, hf, getHeader, hq, ih]

lemma getHeader_setHeader_ne (hs : List (String × String)) (k v q : String)
    (h : q ≠ k) :
    getHeader (setHeader hs k v) q = getHeader hs q := by
  have hq : (k == q) = false := beq_eq_false_iff_ne.mpr (Ne.symm h)
  simp only [setHeader, getHeader, hq, if_false]
  exact getHeader_filter_ne hs k q h

/-- The identity claims the middleware decodes from a verified token. -/
structure Claims where
  subject : String
  email : String
  emailVerified : Bool
  preferredUsername : String
  groups : List String
deriving DecidableEq

/-- The data of a token whose signature and expiry checks passed: its
(normalised) audience list and the result of decoding its claims. -/
structure IDToken where
  audience : List String
  claims : Except Unit Claims

/-- The parts of an inbound request the auth middleware can observe: the
Authorization header value ("" when absent) and any token carried in the
URL query (which the code never reads). -/
structure AuthRequest where
  authHeader : String
  queryToken : Option String
deriving DecidableEq

/-- Outcome of the auth middleware on one request: an error response, or
forwarding to the next handler with the decoded claims attached. -/
inductive AuthOutcome where
  | missingToken
  | invalidToken
  | badAudience
  | claimsParseError
  | forwarded (claims : Claims)
deriving DecidableEq

/-- Go strings.HasPrefix, modelled on the strings' character lists. -/
def hasPrefix (s pre : String) : Bool :=
  pre.data.isPrefixOf s.data

/-- The RequireAuth middleware body, as a function of the remote
verification step (an oracle from raw token string to verification result)
and the request. Mirrors the source order: header extraction, signature
and expiry verification, manual audience intersection check, claims
decoding, then forwarding. -/
def RequireAuth (verify : String → Except Unit IDToken)
    (allowedClientIDs : List String) (req : AuthRequest) : AuthOutcome :=
  let authHeader := req.authHeader
  if authHeader == "" || !(hasPrefix authHeader "Bearer ") then
    .missingToken
  else
    let rawIDToken := authHeader.drop 7
    match verify rawIDToken with
    | .error _ => .invalidToken
    | .ok idToken =>
      let isValidAudience :=
        idToken.audience.any fun aud => allowedClientIDs.any fun allowed => aud == allowed
      if !isValidAudience then
        .badAudience
      else
        match idToken.claims with
        | .error _ => .claimsParseError
        | .ok claims => .forwarded claims

/-- C3 counterexample: a request carrying a token only in the query
parameter (empty Authorization header) is rejected as missing-token — the
middleware never consults the query parameter, refuting the claimed
query-parameter fallback. The oracle is irrelevant: the rejection happens
before any verification. -/
theorem RequireAuth_query_fallback_cex :
    ({ authHeader := "", queryToken := some "tok" } : AuthRequest).queryToken.isSome = true ∧
      RequireAuth (fun _ => Except.error ()) ["civil-prototype-frontend"]
        { authHeader := "", queryToken := some "tok" } = AuthOutcome.missingToken := by
  exact ⟨rfl, rfl⟩

/-- C3 (amended): the middleware extracts the bearer token only from the
Authorization header; it fails with the missing-token error exactly when
that header is empty or lacks the "Bearer " prefix — a criterion
independent of the verification oracle, so such requests are rejected
before any network call to the identity provider, and any request whose
token arrives only in the query parameter is among them. -/
theorem RequireAuth_missing_token_iff (verify : String → Except Unit IDToken)
    (allowed : List String) (req : AuthRequest) :
    RequireAuth verify allowed req = AuthOutcome.missingToken ↔
      (req.authHeader == "" || !(hasPrefix req.authHeader "Bearer ")) = true := by
  constructor
  · intro h
    simp only [RequireAuth] at h
    split at h
    · assumption
    · split at h
      · simp at h
      · split at h
        · simp at h
        · split at h <;> simp at h
  · intro hc
    simp [RequireAuth, hc]

/-- C6: a token whose signature verifies but whose audience list has empty
intersection with the configured allow-list is rejected with the
unrecognized-client-application error, whatever its other claims — the
request is never forwarded to the next handler. -/
theorem RequireAuth_audience_reject (verify : String → Except Unit IDToken)
    (allowed : List String) (req : AuthRequest) (tok : IDToken)
    (h1 : hasPrefix req.authHeader "Bearer " = true)
    (h2 : verify (req.authHeader.drop 7) = Except.ok tok)
    (h3 : ∀ aud ∈ tok.audience, aud ∉ allowed) :
    RequireAuth verify allowed req = AuthOutcome.badAudience := by
  have hne : (req.authHeader == "") = false := by
    rw [beq_eq_false_iff_ne]
    intro he
    rw [he] at h1
    exact absurd h1 (by decide)
  have hcond : (req.authHeader == "" || !(hasPrefix req.authHeader "Bearer ")) = false := by
    rw [hne, h1]
    rfl
  have haud : (tok.audience.any fun aud => allowed.any fun al => aud == al) = false := by
    rw [List.any_eq_false]
    intro aud hmem hany
    rw [List.any_eq_true] at hany
    obtain ⟨al, hal, hbe⟩ := hany
    have heq : aud = al := by simpa using hbe
    exact h3 aud hmem (heq ▸ hal)
  simp [RequireAuth, hcond, h2, haud]

/-- A concrete verified token for the C6 witness: valid claims, but an
audience outside the allow-list. -/
def tokEx : IDToken :=
  { audience := ["other-client"],
    claims := Except.ok
      { subject := "user1", email := "user1@civillabs.app", emailVerified := true,
        preferredUsername := "user1", groups := ["staff"] } }

theorem RequireAuth_audience_reject_witness :
    RequireAuth (fun _ => Except.ok tokEx) ["civil-prototype-frontend"]
      { authHeader := "Bearer abc", queryToken := none } = AuthOutcome.badAudience :=
  RequireAuth_audience_reject (fun _ => Except.ok tokEx) ["civil-prototype-frontend"]
    { authHeader := "Bearer abc", queryToken := none } tokEx
    (by decide) rfl (by decide)

/-- Result of running the CORS middleware on one request: the response
headers it set, the status written, and whether the request was passed on
to the next handler. -/
structure CorsResult where
  headers : List (String × String)
  status : Nat
  forwarded : Bool
deriving DecidableEq

/-- CORSMiddleware as a function of the response's prior header map, the
status the next handler would write, and the request method: it always
sets the three CORS headers first, answers OPTIONS with 200 without
forwarding, and forwards everything else. -/
def CORSMiddleware (hs0 : List (String × String)) (nextStatus : Nat)
    (method : String) : CorsResult :=
  let hs := setHeader (setHeader (setHeader hs0
    "Access-Control-Allow-Origin" "*")
    "Access-Control-Allow-Methods" "GET, OPTIONS")
    "Access-Control-Allow-Headers" "Content-Type, Authorization"
  if method == "OPTIONS" then
    { headers := hs, status := 200, forwarded := false }
  else
    { headers := hs, status := nextStatus, forwarded := true }

/-- C7: every request through the CORS middleware gets the three CORS
headers set on the response regardless of method or downstream processing,
and every OPTIONS request is answered immediately with HTTP 200 and never
passed to the next handler, while non-OPTIONS requests are. -/
theorem CORSMiddleware_spec (hs0 : List (String × String)) (nextStatus : Nat)
    (method : String) :
    getHeader (CORSMiddleware hs0 nextStatus method).headers
        "Access-Control-Allow-Origin" = "*" ∧
      getHeader (CORSMiddleware hs0 nextStatus method).headers
        "Access-Control-Allow-Methods" = "GET, OPTIONS" ∧
      getHeader (CORSMiddleware hs0 nextStatus method).headers
        "Access-Control-Allow-Headers" = "Content-Type, Authorization" ∧
      (method = "OPTIONS" →
        (CORSMiddleware hs0 nextStatus method).status = 200 ∧
          (CORSMiddleware hs0 nextStatus method).forwarded = false) ∧
      (method ≠ "OPTIONS" →
        (CORSMiddleware hs0 nextStatus method).status = nextStatus ∧
          (CORSMiddleware hs0 nextStatus method).forwarded = true) := by
  have hhs : (CORSMiddleware hs0 nextStatus method).headers =
      setHeader (setHeader (setHeader hs0
        "Access-Control-Allow-Origin" "*")
        "Access-Control-Allow-Methods" "GET, OPTIONS")
        "Access-Control-Allow-Headers" "Content-Type, Authorization" := by
    rw [CORSMiddleware]
    split <;> rfl
  refine ⟨?_, ?_, ?_, ?_, ?_⟩
  · rw [hhs, getHeader_setHeader_ne _ _ _ _ (by decide),
      getHeader_setHeader_ne _ _ _ _ (by decide), getHeader_setHeader_self]
  · rw [hhs, getHeader_setHeader_ne _ _ _ _ (by decide), getHeader_setHeader_self]
  · rw [hhs, getHeader_setHeader_self]
  · intro hm
    have hmb : (method == "OPTIONS") = true := beq_iff_eq.mpr hm
    rw [CORSMiddleware]
    simp only [hmb, if_true]
    refine ⟨?_, ?_⟩ <;> trivial
  · intro hm
    have hmb : (method == "OPTIONS") = false := beq_eq_false_iff_ne.mpr hm
    rw [CORSMiddleware]
    simp only [hmb, Bool.false_eq_true, if_false]
    refine ⟨?_, ?_⟩ <;> trivial

theorem CORSMiddleware_spec_witness :
    getHeader (CORSMiddleware [] 404 "OPTIONS").headers
        "Access-Control-Allow-Origin" = "*" ∧
      (CORSMiddleware [] 404 "OPTIONS").status = 200 ∧
      (CORSMiddleware [] 404 "OPTIONS").forwarded = false :=
  ⟨(CORSMiddleware_spec [] 404 "OPTIONS").1,
    ((CORSMiddleware_spec [] 404 "OPTIONS").2.2.2.1 rfl).1,
    ((CORSMiddleware_spec [] 404 "OPTIONS").2.2.2.1 rfl).2⟩

/-- The parts of the inbound request the proxy director reads and writes:
the target URL's scheme, host and path, the Host header, the header map,
and the remote (client connection) address. -/
structure ProxyRequest where
  urlScheme : String
  urlHost : String
  urlPath : String
  host : String
  headers : List (String × String)
  remoteAddr : String
deriving DecidableEq

/-- url.Parse restricted to the address shapes the pool holds
(scheme://host, no path): splits at the :// separator. -/
def parseURL (s : String) : String × String :=
  match s.splitOn "://" with
  | [scheme, host] => (scheme, host)
  | _ => ("", "")

/-- The reverse proxy's Director hook, as a function of the pool state
(endpoint list and counter) and the inbound request: on selection failure
it leaves the request untouched; otherwise it rewrites scheme, URL host
and Host header to the selected backend and injects the three forwarding
headers, leaving the path alone. -/
def director (eps : List String) (c : Nat) (req : ProxyRequest) :
    ProxyRequest × Nat :=
  match NextEndpoint eps c with
  | .error _ => (req, c)
  | .ok (targetStr, c2) =>
    let originalHost := if req.host == "" then req.urlHost else req.host
    let targetURL := parseURL targetStr
    let req2 : ProxyRequest :=
      { req with
        urlScheme := targetURL.1
        urlHost := targetURL.2
        host := targetURL.2
        headers := setHeader (setHeader (setHeader req.headers
          "X-Forwarded-Host" originalHost)
          "X-Forwarded-Proto" "https")
          "X-Real-IP" req.remoteAddr }
    (req2, c2)

/-- C8: when endpoint selection fails (empty pool) the director leaves the
request — URL, Host and headers — and the counter entirely unchanged; when
selection returns a backend, the URL scheme and host and the Host header
are rewritten to the parsed backend address, X-Forwarded-Host is set to
the original inbound host (falling back to the URL host when the Host
header is empty), X-Forwarded-Proto is set to the fixed value https,
X-Real-IP is set to the inbound connection's address, and the URL path is
left unmodified in both cases. -/
theorem director_spec (eps : List String) (c : Nat) (req : ProxyRequest) :
    (eps = [] → director eps c req = (req, c)) ∧
      (∀ t c2, NextEndpoint eps c = Except.ok (t, c2) →
        (director eps c req).2 = c2 ∧
          (director eps c req).1.urlScheme = (parseURL t).1 ∧
          (director eps c req).1.urlHost = (parseURL t).2 ∧
          (director eps c req).1.host = (parseURL t).2 ∧
          getHeader (director eps c req).1.headers "X-Forwarded-Host" =
            (if req.host == "" then req.urlHost else req.host) ∧
          getHeader (director eps c req).1.headers "X-Forwarded-Proto" = "https" ∧
          getHeader (director eps c req).1.headers "X-Real-IP" = req.remoteAddr ∧
          (director eps c req).1.urlPath = req.urlPath) := by
  constructor
  · intro he
    subst he
    rfl
  · intro t c2 hok
    simp only [director, hok]
    refine ⟨?_, ?_, ?_, ?_, ?_, ?_, ?_, ?_⟩
    all_goals trivial

/-- A concrete inbound request for the C8 witness. -/
def reqEx : ProxyRequest :=
  { urlScheme := "https", urlHost := "civillabs.app", urlPath := "/12/654/1583.png",
    host := "civillabs.app", headers := [("Authorization", "Bearer abc")],
    remoteAddr := "203.0.113.7:51442" }

theorem director_spec_witness :
    director [] 0 reqEx = (reqEx, 0) ∧
      (director ["http://10.0.0.5:8080"] 0 reqEx).1.urlHost =
        (parseURL "http://10.0.0.5:8080").2 ∧
      getHeader (director ["http://10.0.0.5:8080"] 0 reqEx).1.headers
        "X-Forwarded-Proto" = "https" :=
  ⟨(director_spec [] 0 reqEx).1 rfl,
    ((director_spec ["http://10.0.0.5:8080"] 0 reqEx).2
      "http://10.0.0.5:8080" 1 rfl).2.2.1,
    ((director_spec ["http://10.0.0.5:8080"] 0 reqEx).2
      "http://10.0.0.5:8080" 1 rfl).2.2.2.2.2.1⟩
